import Mathlib

/-!
Verification of the NPL client (single-page sports-league app).

This file gives a shallow embedding, in Lean, of the core logic of the
repository and proves the specified properties about it:

* the match lifecycle resolver `useCountdown` (Upcoming page), which maps a
  match's start instant, declared status string and the current instant to a
  derived display state and a countdown label;
* the day-bucket filter of the Upcoming page (`matchesDayPred`), including the
  JavaScript `String.split` / `parseInt` semantics it relies on;
* the progress-bar percentage computation (`ProgressBar` plus the `MatchCard`
  wiring);
* the localStorage-backed offline persistence path
  (`getMatches`/`saveMatches`/`upsertMatch`/`deleteMatch`);
* the REST client's response handling (`request` in `service/api.js`);
* the admin route guard (`RequireAdmin`);
* the admin set-live client-side reconciliation (`Admin.jsx`).

Instants are modelled as integer milliseconds since the epoch (JavaScript
`Date` arithmetic on ms values); statuses are the raw JavaScript strings.
Host-platform primitives (the browser's JSON codec, `localStorage`, `fetch`)
are modelled by their observable contracts; every function of the repository
itself is translated clause by clause from the source.
-/

namespace NplClient

/-! ## Match lifecycle resolver (`useCountdown` in the Upcoming page) -/

/-- Result triple of `useCountdown`: `{ diffMs, countdownLabel, state }`. -/
structure CountdownResult where
  diffMs : Int
  countdownLabel : String
  state : String
deriving DecidableEq, Repr

/-- Source `pad(n)`: `n.toString().padStart(2, "0")` for a non-negative
integer `n`. -/
def pad (n : Nat) : String :=
  let s := toString n
  if s.length < 2 then "0" ++ s else s

/-- Source `useCountdown(startDate, status, now)`.  `startDate` and `now` are
instants in ms; `diffMs = startDate - now`; declared `completed` / `live`
short-circuit, then the time-derived state and duration label are computed. -/
def useCountdown (startDate : Int) (status : String) (now : Int) : CountdownResult :=
  let diffMs := startDate - now
  let abs := max diffMs 0
  if status = "completed" then
    { diffMs := diffMs, countdownLabel := "Ended", state := "completed" }
  else if status = "live" then
    { diffMs := diffMs, countdownLabel := "In Progress", state := "live" }
  else if diffMs ≤ 0 then
    { diffMs := diffMs, countdownLabel := "Starting", state := "live" }
  else
    let state := if diffMs ≤ 10 * 60 * 1000 then "soon" else "scheduled"
    let absN := abs.toNat
    let seconds := absN / 1000 % 60
    let minutes := absN / (60 * 1000) % 60
    let hours := absN / (60 * 60 * 1000)
    let countdownLabel :=
      if hours > 0 then pad hours ++ ":" ++ pad minutes ++ ":" ++ pad seconds
      else pad minutes ++ ":" ++ pad seconds
    { diffMs := diffMs, countdownLabel := countdownLabel, state := state }

/-- Source `MatchCard` destructuring default `status = "scheduled"`: an absent status field
defaults to `"scheduled"` before `useCountdown` is called. -/
def matchCardStatus (status : Option String) : String :=
  match status with
  | none => "scheduled"
  | some s => s

/-- The status values offered by the Admin editor's status `<select>`
(`Admin.jsx`). -/
def editorStatusOptions : List String :=
  ["scheduled", "soon", "live", "completed"]

/-- Spec-side derived-state table, written from the specification's words:
`completed` if declared completed; otherwise `live` if declared live or
(declared scheduled and `now ≥ startInstant`); otherwise `soon` if declared
scheduled and `0 < startInstant - now ≤ 10` minutes; otherwise `scheduled`. -/
def derivedStateSpec (startInstant now : Int) (declared : String) : String :=
  if declared = "completed" then "completed"
  else if declared = "live" ∨ (declared = "scheduled" ∧ now ≥ startInstant) then "live"
  else if declared = "scheduled" ∧ 0 < startInstant - now ∧
      startInstant - now ≤ 10 * 60 * 1000 then "soon"
  else "scheduled"

/-- Spec-side countdown-label table, written from the specification's words:
literal labels for declared completed/live and for auto-promoted live; else
the remaining ms floored to whole seconds, seconds and minutes modulo 60,
hours by whole-hour floor division, `HH:MM:SS` when remaining ≥ 1 hour and
`MM:SS` otherwise, each field two-digit zero-padded. -/
def countdownLabelSpec (startInstant now : Int) (declared : String) : String :=
  if declared = "completed" then "Ended"
  else if declared = "live" then "In Progress"
  else if now ≥ startInstant then "Starting"
  else
    let remaining := (startInstant - now).toNat
    let totalSeconds := remaining / 1000
    let hh := totalSeconds / 3600
    let mm := totalSeconds / 60 % 60
    let ss := totalSeconds % 60
    if remaining ≥ 60 * 60 * 1000 then pad hh ++ ":" ++ pad mm ++ ":" ++ pad ss
    else pad mm ++ ":" ++ pad ss

/-! ## Day-bucket filter of the Upcoming page

The filter splits `m.date` on `"-"`, maps JavaScript `parseInt(_, 10)` over
the parts, rejects when the part count is not 3, and otherwise compares the
components against the selected day's `getFullYear()` / `getMonth()` /
`getDate()`.  `parseInt` is modelled by `jsParseInt` (`none` stands for
`NaN`), and a `NaN` component makes every strict-equality comparison false,
exactly as in JavaScript. -/

/-- JavaScript `String.prototype.split` with a single-character separator,
on the character list: splitting the empty string yields `[""]`, adjacent
separators yield empty components. -/
def splitOnChar (sep : Char) : List Char → List (List Char)
  | [] => [[]]
  | c :: cs =>
    match splitOnChar sep cs with
    | [] => [[]]
    | r :: rs => if c = sep then [] :: r :: rs else (c :: r) :: rs

/-- JavaScript `s.split("-")`. -/
def jsSplitDash (s : String) : List String :=
  (splitOnChar '-' s.data).map (fun cs => String.mk cs)

/-- Whitespace accepted (and skipped) by JavaScript `parseInt`. -/
def jsSpace (c : Char) : Bool :=
  c == ' ' || c == '\t' || c == '\n' || c == '\r'

/-- Value of a non-empty string of decimal digits. -/
def digitsToNat (ds : List Char) : Nat :=
  ds.foldl (fun acc c => acc * 10 + (c.toNat - 48)) 0

/-- The longest decimal-digit prefix, or `none` when there is none. -/
def digitsVal (cs : List Char) : Option Nat :=
  let ds := cs.takeWhile (fun c => c.isDigit)
  if ds.isEmpty then none else some (digitsToNat ds)

/-- JavaScript `parseInt(s, 10)`: skip leading whitespace, read an optional
sign, then the longest digit prefix; `NaN` (here `none`) when no digit
follows. -/
def jsParseInt (s : String) : Option Int :=
  let cs := s.data.dropWhile (fun c => jsSpace c)
  match cs with
  | '-' :: rest => (digitsVal rest).map (fun v => -(v : Int))
  | '+' :: rest => (digitsVal rest).map (fun v => (v : Int))
  | rest => (digitsVal rest).map (fun v => (v : Int))

/-- JavaScript strict equality between a possibly-`NaN` number and an
ordinary number: `NaN === x` is always false. -/
def jsEq (v : Option Int) (t : Int) : Bool :=
  match v with
  | none => false
  | some x => x == t

/-- The per-match predicate of the `filtered` memo in the Upcoming page:
`m.date.split("-").map(parseInt)`, reject unless exactly 3 parts, then
compare year, 0-based month and day-of-month with the selected target day. -/
def matchesDayPred (dateStr : String) (targetY targetM targetD : Int) : Bool :=
  match (jsSplitDash dateStr).map jsParseInt with
  | [y, m, d] => jsEq y targetY && jsEq (m.map (fun x => x - 1)) targetM && jsEq d targetD
  | _ => false

/-- A calendar day as observed through a JavaScript `Date`: per the
ECMAScript specification `getMonth()` is always in `[0, 11]` and `getDate()`
in `[1, 31]`.  The seven day-bucket tabs are `new Date(y, m, d + i)` for
`i = 0..6`, all of which satisfy these bounds. -/
structure CivilDate where
  year : Int
  month0 : Int
  dayOfMonth : Int
  month0_nonneg : 0 ≤ month0
  month0_lt : month0 < 12
  day_pos : 1 ≤ dayOfMonth
  day_le : dayOfMonth ≤ 31

/-- Day-bucket membership of a match date string for a given (normalized)
target day. -/
def matchesDay (dateStr : String) (t : CivilDate) : Bool :=
  matchesDayPred dateStr t.year t.month0 t.dayOfMonth

/-- A date string splits on `"-"` into exactly three numeric components. -/
def threeNumericParts (dateStr : String) : Prop :=
  (jsSplitDash dateStr).length = 3 ∧
    ∀ p ∈ jsSplitDash dateStr, (jsParseInt p).isSome = true

instance (dateStr : String) : Decidable (threeNumericParts dateStr) := by
  unfold threeNumericParts; infer_instance

/-- A sample valid target day used to instantiate universally quantified
statements about day buckets. -/
def sampleDay : CivilDate :=
  { year := 2025, month0 := 9, dayOfMonth := 15,
    month0_nonneg := by decide, month0_lt := by decide,
    day_pos := by decide, day_le := by decide }

/-! ## Progress indicator (`ProgressBar` and its `MatchCard` wiring)

`ProgressBar` receives `totalMs` (the fixed 2-hour pre-match window),
`remainingMs` and the derived state; `MatchCard` passes
`totalMs = 2*60*60*1000` and `remainingMs = Math.min(diffMs, 2*60*60*1000)`.
Percentages are modelled over `ℚ` (JavaScript number arithmetic on these
integer inputs is exact). -/

/-- Source `pct`: 100 for `live`/`completed`, otherwise the elapsed fraction
`100 - remainingMs / totalMs * 100`. -/
def progressPct (totalMs remainingMs : ℚ) (state : String) : ℚ :=
  if state = "live" ∨ state = "completed" then 100
  else 100 - remainingMs / totalMs * 100

/-- Source width style: `Math.min(Math.max(pct, 3), 100)` percent. -/
def progressWidth (totalMs remainingMs : ℚ) (state : String) : ℚ :=
  min (max (progressPct totalMs remainingMs state) 3) 100

/-- The progress width as wired by `MatchCard`: a fixed two-hour window and
`remainingMs = Math.min(diffMs, 2h)`. -/
def matchCardProgressWidth (diffMs : Int) (state : String) : ℚ :=
  progressWidth (2 * 60 * 60 * 1000) (min (diffMs : ℚ) (2 * 60 * 60 * 1000)) state

/-! ## localStorage-backed offline persistence path

`getMatches` reads the flat list key, returning `[]` when the raw value is
absent or falsy, when `JSON.parse` throws, or when the parsed value is not an
array; `saveMatches` writes `JSON.stringify(list)`.  The browser's storage
and JSON codec are platform primitives; they are modelled by their contract:
the slot holds either nothing, raw text that does not parse, a parsed
non-array value, or a parsed array of match records (`JSON.parse ∘
JSON.stringify` is the identity on the plain records stored here). -/

/-- A stored match record of the offline path: an `id` string plus the
remaining fields, opaque to the persistence code (which only reads `id`). -/
structure LSMatch where
  id : String
  fields : List (String × String)
deriving DecidableEq, Repr

/-- Decoded content of the localStorage slot for the match-list key. -/
inductive SlotContent where
  | absent : SlotContent
  | parseFailure (raw : String) : SlotContent
  | nonArrayJson (tag : String) : SlotContent
  | arrayJson (ms : List LSMatch) : SlotContent
deriving DecidableEq, Repr

/-- Source `getMatches()`: `[]` for an absent/falsy raw value, `[]` when
`JSON.parse` throws (the surrounding `try`/`catch`), the parsed array when
`Array.isArray(data)`, and `[]` otherwise. -/
def getMatches (slot : SlotContent) : List LSMatch :=
  match slot with
  | .absent => []
  | .parseFailure _ => []
  | .nonArrayJson _ => []
  | .arrayJson ms => ms

/-- Source `saveMatches(matches)`: store `JSON.stringify(matches)`, which
decodes back as exactly that array. -/
def saveMatches (ms : List LSMatch) : SlotContent :=
  .arrayJson ms

/-- Body of `upsertMatch` on the decoded list: `findIndex` on `id` equality,
in-place replacement when found, `push` otherwise. -/
def upsertList (list : List LSMatch) (m : LSMatch) : List LSMatch :=
  match list.findIdx? (fun x => x.id == m.id) with
  | some idx => list.set idx m
  | none => list ++ [m]

/-- Source `upsertMatch(match)`: read, replace-or-append by `id`, save. -/
def upsertMatch (slot : SlotContent) (m : LSMatch) : SlotContent :=
  saveMatches (upsertList (getMatches slot) m)

/-- Source `deleteMatch(id)`: keep the entries whose `id` differs, save. -/
def deleteMatch (slot : SlotContent) (mid : String) : SlotContent :=
  saveMatches ((getMatches slot).filter (fun m => m.id != mid))

/-! ## REST client response handling (`request` in `service/api.js`) -/

/-- A `fetch` response as consumed by `request`: status code, the body text,
the status text, and the body's JSON decoding (`none` when `res.json()`
would reject). -/
structure HttpResponse where
  status : Nat
  bodyText : String
  statusText : String
  jsonBody : Option String
deriving DecidableEq, Repr

/-- Value of `Response.ok` per the fetch specification: status in the range 200-299. -/
def resOk (status : Nat) : Bool :=
  decide (200 ≤ status) && decide (status < 300)

/-- Settled outcome of the `request` promise. -/
inductive RequestOutcome where
  | ok (payload : Option String) : RequestOutcome
  | httpError (msg : String) : RequestOutcome
  | jsonDecodeFailure : RequestOutcome
deriving DecidableEq, Repr

/-- Source `request`: on `!res.ok` throw `Error(text || res.statusText)`;
on status 204 resolve with `null` (here `ok none`); otherwise resolve with
`res.json()` (which may itself reject). -/
def request (res : HttpResponse) : RequestOutcome :=
  if !resOk res.status then
    .httpError (if res.bodyText = "" then res.statusText else res.bodyText)
  else if res.status = 204 then .ok none
  else
    match res.jsonBody with
    | some v => .ok (some v)
    | none => .jsonDecodeFailure

/-! ## Admin route guard (`RequireAdmin`) -/

/-- The stored user record; `role` may be missing on the raw object, in
which case `user?.role` is `undefined` (`none`). -/
structure SessionUser where
  role : Option String
deriving DecidableEq, Repr

/-- JavaScript optional chaining `user?.role`. -/
def userRole (user : Option SessionUser) : Option String :=
  match user with
  | none => none
  | some u => u.role

/-- JavaScript truthiness of the token value (`null` and `""` are falsy). -/
def tokenTruthy (token : Option String) : Bool :=
  match token with
  | none => false
  | some s => s != ""

/-- What the guard renders. -/
inductive GuardOutcome where
  | redirectLogin (fromPath : String) : GuardOutcome
  | renderChildren : GuardOutcome
deriving DecidableEq, Repr

/-- Source `RequireAdmin`: when `!token || user?.role !== 'admin'`, navigate
to `/login` carrying `state.from = location.pathname`; otherwise render the
protected children. -/
def requireAdmin (token : Option String) (user : Option SessionUser)
    (pathname : String) : GuardOutcome :=
  if !tokenTruthy token || userRole user != some "admin" then
    .redirectLogin pathname
  else .renderChildren

/-! ## Admin set-live reconciliation (`Admin.jsx`) -/

/-- A match row of the admin list: the Mongo-style `_id`, the status, and the
remaining fields, opaque to the reconciliation (which touches only
`status`). -/
structure AdminMatch where
  mid : String
  status : String
  rest : List (String × String)
deriving DecidableEq, Repr

/-- Source updater passed to `SetLiveButton.onDone`:
`prev.map(x => x._id === updated._id ? updated
  : (x.status === 'live' ? { ...x, status: 'scheduled' } : x))`. -/
def setLiveReconcile (updated : AdminMatch) (prev : List AdminMatch) : List AdminMatch :=
  prev.map (fun x =>
    if x.mid == updated.mid then updated
    else if x.status == "live" then { x with status := "scheduled" }
    else x)

/-- Number of live-flagged entries in a list. -/
def liveCount (l : List AdminMatch) : Nat :=
  (l.filter (fun x => x.status == "live")).length

/-! # Theorems -/

/-- C1: for every match and every current instant, the resolver's derived
state is `completed` when declared completed; otherwise `live` when declared
live or declared scheduled with `now ≥ startInstant`; otherwise `soon` when
declared scheduled and `0 < startInstant - now ≤ 10` minutes; otherwise
`scheduled`.  Declared completed/live short-circuit before any time-based
derivation, and time-based auto-promotion applies only to scheduled-declared
matches whose start instant has passed. -/
theorem c1_derived_state_table (startInstant now : Int) (status : String)
    (h : status = "scheduled" ∨ status = "live" ∨ status = "completed") :
    (useCountdown startInstant status now).state =
      derivedStateSpec startInstant now status := by
  rcases h with h | h | h <;> subst h
  · simp only [useCountdown, derivedStateSpec]
    split_ifs <;> simp_all <;> omega
  · simp [useCountdown, derivedStateSpec]
  · rfl

/-- Witness for C1: a scheduled match nine minutes before start derives
`soon`, as the spec table demands. -/
theorem c1_derived_state_table_witness :
    (("scheduled" : String) = "scheduled" ∨ ("scheduled" : String) = "live" ∨
      ("scheduled" : String) = "completed") ∧
    (useCountdown 540000 "scheduled" 0).state = derivedStateSpec 540000 0 "scheduled" :=
  ⟨Or.inl rfl, c1_derived_state_table 540000 0 "scheduled" (Or.inl rfl)⟩

/-- C2: the countdown label is `"Ended"` when declared completed,
`"In Progress"` when declared live, `"Starting"` when auto-promoted to live,
and otherwise the remaining duration formatted `HH:MM:SS` (when at least one
hour remains) or `MM:SS`, fields two-digit zero-padded, from the remaining
milliseconds floored to whole seconds with seconds/minutes modulo 60 and
hours by floor division; in particular 3661000 ms yields `"01:01:01"` and
nine minutes yields `"09:00"`. -/
theorem c2_countdown_label :
    (∀ (startInstant now : Int) (status : String),
      status = "scheduled" ∨ status = "live" ∨ status = "completed" →
      (useCountdown startInstant status now).countdownLabel =
        countdownLabelSpec startInstant now status) ∧
    (useCountdown 3661000 "scheduled" 0).countdownLabel = "01:01:01" ∧
    (useCountdown 540000 "scheduled" 0).countdownLabel = "09:00" := by
  refine ⟨?_, by decide, by decide⟩
  intro s n status h
  rcases h with h | h | h <;> subst h
  · simp only [useCountdown, countdownLabelSpec]
    have habs : (max (s - n) 0).toNat = (s - n).toNat := by omega
    have h1 : (s - n).toNat / (60 * 60 * 1000) = (s - n).toNat / 1000 / 3600 := by
      omega
    have h2 : (s - n).toNat / (60 * 1000) % 60 = (s - n).toNat / 1000 / 60 % 60 := by
      omega
    simp only [habs, h1, h2]
    split_ifs <;> first | rfl | (exfalso; omega)
  · simp [useCountdown, countdownLabelSpec]
  · rfl

/-- Witness for C2: the universally quantified part applied at one hour, one
minute and one second before start. -/
theorem c2_countdown_label_witness :
    (("scheduled" : String) = "scheduled" ∨ ("scheduled" : String) = "live" ∨
      ("scheduled" : String) = "completed") ∧
    (useCountdown 3661000 "scheduled" 0).countdownLabel =
      countdownLabelSpec 3661000 0 "scheduled" :=
  ⟨Or.inl rfl, c2_countdown_label.1 3661000 0 "scheduled" (Or.inl rfl)⟩

/-- C10: for every declared status other than `"completed"` and `"live"` —
including the absent status, which `MatchCard` defaults to `"scheduled"`,
and the `"soon"` value offered by the Admin editor's selector — the resolver
derives state and label purely from the time comparison, exactly as for a
declared `"scheduled"` match. -/
theorem c10_nonreserved_status_like_scheduled (startInstant now : Int) (status : String)
    (h1 : status ≠ "completed") (h2 : status ≠ "live") :
    useCountdown startInstant status now = useCountdown startInstant "scheduled" now ∧
    matchCardStatus none = "scheduled" ∧ "soon" ∈ editorStatusOptions := by
  refine ⟨?_, rfl, by decide⟩
  simp [useCountdown, h1, h2]

/-- Witness for C10 at the Admin editor's `"soon"` status. -/
theorem c10_nonreserved_status_like_scheduled_witness :
    ("soon" : String) ≠ "completed" ∧ ("soon" : String) ≠ "live" ∧
    useCountdown 540000 "soon" 0 = useCountdown 540000 "scheduled" 0 :=
  ⟨by decide, by decide,
    (c10_nonreserved_status_like_scheduled 540000 0 "soon" (by decide) (by decide)).1⟩

/-- C4: the rendered progress percentage always lies in `[3, 100]`; derived
states `live` and `completed` force it to 100; and a remaining time of 3
hours against the fixed 2-hour window clamps to exactly 3. -/
theorem c4_progress_clamped :
    (∀ (diffMs : Int) (state : String),
      3 ≤ matchCardProgressWidth diffMs state ∧
        matchCardProgressWidth diffMs state ≤ 100) ∧
    (∀ diffMs : Int, matchCardProgressWidth diffMs "live" = 100 ∧
      matchCardProgressWidth diffMs "completed" = 100) ∧
    matchCardProgressWidth (3 * 60 * 60 * 1000) "scheduled" = 3 := by
  refine ⟨?_, ?_, ?_⟩
  · intro d st
    exact ⟨le_min (le_max_right _ _) (by norm_num), min_le_right _ _⟩
  · intro d
    constructor <;> norm_num [matchCardProgressWidth, progressWidth, progressPct]
  · have hcond : ¬(("scheduled" : String) = "live" ∨ ("scheduled" : String) = "completed") := by
      decide
    simp only [matchCardProgressWidth, progressWidth, progressPct, if_neg hcond]
    norm_num

/-- C3: a match whose date string does not split into exactly three numeric
components is excluded from every day bucket (the filter is a total Boolean
function, so no exception can propagate), and the invalid date
`"2025-13-40"` is likewise excluded from every bucket, since its parsed
0-based month 12 can never equal a real calendar month. -/
theorem c3_day_filter_excludes_malformed :
    (∀ (dateStr : String) (t : CivilDate), ¬ threeNumericParts dateStr →
      matchesDay dateStr t = false) ∧
    (∀ t : CivilDate, matchesDay "2025-13-40" t = false) := by
  constructor
  · intro dateStr t hne
    unfold matchesDay matchesDayPred
    unfold threeNumericParts at hne
    rcases hL : jsSplitDash dateStr with _ | ⟨a, _ | ⟨b, _ | ⟨c, _ | ⟨d, rest⟩⟩⟩⟩
    · rfl
    · rfl
    · rfl
    · rw [hL] at hne
      have h3 : ¬ ∀ p ∈ [a, b, c], (jsParseInt p).isSome = true := by
        intro hall
        exact hne ⟨rfl, hall⟩
      push_neg at h3
      obtain ⟨p, hp, hns⟩ := h3
      have hnone : jsParseInt p = none := by
        cases hcase : jsParseInt p with
        | none => rfl
        | some v => rw [hcase] at hns; simp at hns
      have hp' : p = a ∨ p = b ∨ p = c := by simpa using hp
      simp only [List.map_cons, List.map_nil]
      rcases hp' with hp' | hp' | hp' <;> subst hp' <;>
        simp [hnone, jsEq]
    · rfl
  · intro t
    have hsplit : (jsSplitDash "2025-13-40").map jsParseInt =
        [some 2025, some 13, some 40] := by decide
    unfold matchesDay matchesDayPred
    rw [hsplit]
    have hlt := t.month0_lt
    simp [jsEq]
    intro _ h2
    omega

/-- Witness for C3: a two-component date string fails the numeric-split
requirement and is excluded from a sample day bucket. -/
theorem c3_day_filter_excludes_malformed_witness :
    ¬ threeNumericParts "2025-13" ∧ matchesDay "2025-13" sampleDay = false :=
  ⟨by decide, c3_day_filter_excludes_malformed.1 "2025-13" sampleDay (by decide)⟩

/-- After an upsert, the decoded list always contains an entry carrying the
upserted id: `findIndex` either points at a slot that gets overwritten with
the new record, or the record is appended. -/
theorem upsertList_any_id (list : List LSMatch) (m : LSMatch) :
    (upsertList list m).any (fun x => x.id == m.id) = true := by
  unfold upsertList
  induction list with
  | nil => simp
  | cons a l ih =>
    rw [List.findIdx?_cons]
    cases hpa : (a.id == m.id) with
    | true => simp [hpa]
    | false =>
      simp only [Bool.false_eq_true, if_false, List.findIdx?_start_succ]
      cases hfi : List.findIdx? (fun x => x.id == m.id) l with
      | none =>
        rw [hfi] at ih
        simp only [Option.map_none']
        simp [hpa, ih]
      | some j =>
        rw [hfi] at ih
        simp only [Option.map_some']
        simpa [hpa, List.set_cons_succ] using ih

/-- C5: over the localStorage persistence path, after `upsertMatch(m)` the
listing contains an entry with `m`'s id, and after `deleteMatch(id)` the
listing contains no entry with that id, whatever the prior slot content. -/
theorem c5_offline_crud_roundtrip :
    (∀ (slot : SlotContent) (m : LSMatch),
      (getMatches (upsertMatch slot m)).any (fun x => x.id == m.id) = true) ∧
    (∀ (slot : SlotContent) (mid : String),
      (getMatches (deleteMatch slot mid)).all (fun x => x.id != mid) = true) := by
  constructor
  · intro slot m
    simp only [upsertMatch, saveMatches, getMatches]
    exact upsertList_any_id (getMatches slot) m
  · intro slot mid
    simp only [deleteMatch, saveMatches, getMatches]
    rw [List.all_eq_true]
    intro x hx
    exact (List.mem_filter.mp hx).2

/-- C7: `getMatches` is a total function of the slot content and returns the
empty list whenever the stored value is absent, fails to parse, or parses to
something other than an array; a stored array is returned as-is. -/
theorem c7_getMatches_falls_back_to_empty :
    getMatches .absent = [] ∧
    (∀ raw, getMatches (.parseFailure raw) = []) ∧
    (∀ tag, getMatches (.nonArrayJson tag) = []) ∧
    (∀ ms, getMatches (.arrayJson ms) = ms) :=
  ⟨rfl, fun _ => rfl, fun _ => rfl, fun _ => rfl⟩

/-- C6: a 204 response resolves as empty success; a non-2xx response rejects
with the body text, or the status text when the body text is empty; and a
request rejects with such an HTTP error exactly when the status is
non-2xx. -/
theorem c6_request_error_handling :
    (∀ res : HttpResponse, res.status = 204 → request res = .ok none) ∧
    (∀ res : HttpResponse, resOk res.status = false → res.bodyText ≠ "" →
      request res = .httpError res.bodyText) ∧
    (∀ res : HttpResponse, resOk res.status = false → res.bodyText = "" →
      request res = .httpError res.statusText) ∧
    (∀ res : HttpResponse,
      (∃ msg, request res = .httpError msg) ↔ resOk res.status = false) := by
  refine ⟨?_, ?_, ?_, ?_⟩
  · intro res h
    simp [request, h, resOk]
  · intro res h hb
    simp [request, h, hb]
  · intro res h hb
    simp [request, h, hb]
  · intro res
    constructor
    · rintro ⟨msg, hmsg⟩
      by_contra hok
      have hok' : resOk res.status = true := by
        cases hcase : resOk res.status with
        | true => rfl
        | false => exact absurd hcase hok
      simp only [request, hok', Bool.not_true, Bool.false_eq_true, if_false] at hmsg
      by_cases h204 : res.status = 204
      · simp [h204] at hmsg
      · simp only [if_neg h204] at hmsg
        rcases hj : res.jsonBody with _ | v <;> rw [hj] at hmsg <;> simp at hmsg
    · intro h
      exact ⟨if res.bodyText = "" then res.statusText else res.bodyText,
        by simp [request, h]⟩

/-- Witness for C6: a 500 response with body `"boom"` rejects with message
`"boom"`; a bare 204 resolves as an empty success. -/
theorem c6_request_error_handling_witness :
    resOk 500 = false ∧ ("boom" : String) ≠ "" ∧
    request ⟨500, "boom", "Internal Server Error", none⟩ = .httpError "boom" ∧
    request ⟨204, "", "No Content", none⟩ = .ok none :=
  ⟨by decide, by decide,
    c6_request_error_handling.2.1 _ (by decide) (by decide),
    c6_request_error_handling.1 _ rfl⟩

/-- C8: the admin route guard redirects to the login view carrying the
originally requested path exactly when the token is absent or the user's
role is not `admin`, and renders the protected content otherwise. -/
theorem c8_admin_guard (token : Option String) (user : Option SessionUser)
    (pathname : String) (htok : token ≠ some "") :
    (requireAdmin token user pathname = .redirectLogin pathname ↔
      token = none ∨ userRole user ≠ some "admin") ∧
    (requireAdmin token user pathname = .renderChildren ↔
      token ≠ none ∧ userRole user = some "admin") := by
  rcases token with _ | t
  · simp [requireAdmin, tokenTruthy]
  · have ht : (t != "") = true := by
      simp only [bne_iff_ne]
      intro h
      exact htok (by rw [h])
    by_cases hrole : userRole user = some "admin"
    · simp [requireAdmin, tokenTruthy, ht, hrole]
    · simp [requireAdmin, tokenTruthy, ht, hrole, bne_iff_ne]

/-- Witness for C8: a non-empty token with role `admin` renders the admin
content; a missing token redirects preserving the requested path. -/
theorem c8_admin_guard_witness :
    (some "tok" : Option String) ≠ some "" ∧
    requireAdmin (some "tok") (some { role := some "admin" }) "/admin" = .renderChildren ∧
    requireAdmin none (some { role := some "admin" }) "/admin" = .redirectLogin "/admin" :=
  ⟨by decide,
    (c8_admin_guard (some "tok") (some { role := some "admin" }) "/admin"
      (by decide)).2.mpr ⟨by decide, rfl⟩,
    (c8_admin_guard none (some { role := some "admin" }) "/admin"
      (by decide)).1.mpr (Or.inl rfl)⟩

/-- Unfolding of `liveCount` over a cons cell. -/
theorem liveCount_cons (x : AdminMatch) (t : List AdminMatch) :
    liveCount (x :: t) = (if (x.status == "live") = true then 1 else 0) + liveCount t := by
  unfold liveCount
  rw [List.filter_cons]
  split_ifs with h
  · simp [Nat.add_comm]
  · simp

/-- Unfolding of `setLiveReconcile` over a cons cell. -/
theorem setLiveReconcile_cons (u a : AdminMatch) (l : List AdminMatch) :
    setLiveReconcile u (a :: l) =
      (if a.mid == u.mid then u
       else if a.status == "live" then { a with status := "scheduled" } else a) ::
        setLiveReconcile u l := rfl

/-- After the set-live reconciliation, a list none of whose entries carries
the updated id contains no live-flagged entry. -/
theorem setLiveReconcile_no_other_live (u : AdminMatch) (l : List AdminMatch)
    (h : ∀ x ∈ l, x.mid ≠ u.mid) :
    liveCount (setLiveReconcile u l) = 0 := by
  induction l with
  | nil => rfl
  | cons a t ih =>
    have ha : (a.mid == u.mid) = false := by
      simp only [beq_eq_false_iff_ne]
      exact h a (by simp)
    have ihz : liveCount (setLiveReconcile u t) = 0 :=
      ih (fun x hx => h x (by simp [hx]))
    rw [setLiveReconcile_cons, liveCount_cons, ha, ihz]
    cases hs : (a.status == "live") with
    | true => simp [hs]
    | false => simp [hs]

/-- With pairwise-distinct ids and a live update, the reconciled list has at
most one live entry. -/
theorem liveCount_reconcile_le_one (u : AdminMatch) (prev : List AdminMatch)
    (hnodup : (prev.map (fun x => x.mid)).Nodup) :
    liveCount (setLiveReconcile u prev) ≤ 1 := by
  induction prev with
  | nil => simp [liveCount, setLiveReconcile]
  | cons a l ih =>
    rw [List.map_cons, List.nodup_cons] at hnodup
    obtain ⟨hnotin, hnd⟩ := hnodup
    rw [setLiveReconcile_cons, liveCount_cons]
    cases hme : (a.mid == u.mid) with
    | true =>
      have hmid : a.mid = u.mid := by simpa using hme
      have hzero : liveCount (setLiveReconcile u l) = 0 := by
        apply setLiveReconcile_no_other_live
        intro x hx hxeq
        apply hnotin
        rw [hmid, ← hxeq]
        exact List.mem_map_of_mem (fun y => y.mid) hx
      rw [hzero]
      split_ifs <;> simp
    | false =>
      have hle := ih hnd
      cases hs : (a.status == "live") with
      | true => simpa [hme, hs] using hle
      | false => simpa [hme, hs] using hle

/-- C9: the set-live reconciliation replaces the entry carrying the updated
id with the server's record, demotes every other live entry to `scheduled`
leaving its remaining fields unchanged, keeps the list length, and — when
the ids are pairwise distinct and the update is live — leaves at most one
live entry in the result. -/
theorem c9_set_live_reconciliation (u : AdminMatch) (prev : List AdminMatch)
    (hnodup : (prev.map (fun x => x.mid)).Nodup) (_hu : u.status = "live") :
    (setLiveReconcile u prev).length = prev.length ∧
    (∀ i : Nat, (setLiveReconcile u prev)[i]? = (prev[i]?).map (fun x =>
      if x.mid = u.mid then u
      else if x.status = "live" then { x with status := "scheduled" }
      else x)) ∧
    liveCount (setLiveReconcile u prev) ≤ 1 := by
  refine ⟨by simp [setLiveReconcile], ?_, ?_⟩
  · intro i
    simp only [setLiveReconcile, List.getElem?_map]
    cases prev[i]? with
    | none => rfl
    | some x =>
      simp only [Option.map_some']
      congr 1
      by_cases h1 : x.mid = u.mid
      · simp [h1]
      · have h1' : (x.mid == u.mid) = false := by simpa [beq_eq_false_iff_ne] using h1
        by_cases h2 : x.status = "live"
        · simp [h1, h1', h2]
        · have h2' : (x.status == "live") = false := by
            simpa [beq_eq_false_iff_ne] using h2
          simp [h1, h1', h2, h2']
  · exact liveCount_reconcile_le_one u prev hnodup

/-- Witness for C9 on a concrete two-row admin list with distinct ids. -/
theorem c9_set_live_reconciliation_witness :
    ((([{ mid := "1", status := "scheduled", rest := [] },
        { mid := "2", status := "live", rest := [] }] : List AdminMatch).map
          (fun x => x.mid)).Nodup) ∧
    ({ mid := "1", status := "live", rest := [] } : AdminMatch).status = "live" ∧
    liveCount (setLiveReconcile { mid := "1", status := "live", rest := [] }
      [{ mid := "1", status := "scheduled", rest := [] },
       { mid := "2", status := "live", rest := [] }]) ≤ 1 :=
  ⟨by decide, rfl,
    (c9_set_live_reconciliation
      { mid := "1", status := "live", rest := [] }
      [{ mid := "1", status := "scheduled", rest := [] },
       { mid := "2", status := "live", rest := [] }]
      (by decide) rfl).2.2⟩

end NplClient
